import Mathlib

/-!
Verification of the FFMPEG_OPENAL decode pipeline (src/Main.cpp) against its
specification.  The single interesting component is `FFMPEG_decode`
(Main.cpp lines 49-127), a loop that interleaves packet reads, decoder
feeding, frame draining and resampling.  The FFmpeg library calls made by
that loop are external collaborators; we embed the loop itself faithfully
and drive it with finite traces of the results those external calls return:

* `reads`  : successive results of `av_read_frame`    (a packet of some
             stream, or an error code);
* `sends`  : successive results of `avcodec_send_packet`;
* `recvs`  : successive results of `avcodec_receive_frame` (a decoded frame
             carrying its `nb_samples`, or an error code);
* `allocs` : successive results of `av_samples_alloc`;
* `convs`  : successive results of `swr_convert` (the return code together
             with the bytes the resampler wrote into the scratch buffer).

Per the spec's resampler/buffer contract (spec.md section 4.4 and step 4 of
section 4.5), the scratch buffer allocated for a frame of `n` samples in the
mono signed-16-bit target format has line size `2 * n` bytes.

Trace-exhaustion conventions (the model's boundary, documented once here):
an exhausted `reads` list behaves like a container at end of stream
(`av_read_frame` keeps returning `AVERROR_EOF`); exhausted `sends` /
`allocs` / `convs` lists behave like always-succeeding calls (result `0`,
no bytes written); an exhausted `recvs` list aborts the run with
`AVERROR(EINVAL) = -22`, a fatal code, so that no theorem can silently rely
on decoder behaviour the trace does not specify.

Ghost instrumentation carried in the state (it never influences control
flow): `allocCount` counts `av_samples_alloc` calls, `freeCount` counts
scratch-buffer release calls (the source contains none, so no step of the
model increments it), `sentStreams` records the `stream_index` of every
packet passed to `avcodec_send_packet`, and `chunks` records each byte
block appended to the output buffer, in order.
-/

/-- `AVERROR(EAGAIN)` on Linux: `-EAGAIN = -11`. -/
def AVERROR_EAGAIN : Int := -11

/-- `AVERROR_EOF = FFERRTAG('E','O','F',' ')`. -/
def AVERROR_EOF : Int := -541478725

/-- Models `format_av_error(int)` (Main.cpp lines 28-38): a negative return
code other than `AVERROR(EAGAIN)` and `AVERROR_EOF` prints a diagnostic and
terminates the process with that code; the two recoverable signals and all
non-negative values pass through. -/
def format_av_error (ret : Int) : Except Int Unit :=
  if ret < 0 ∧ ret ≠ AVERROR_EAGAIN ∧ ret ≠ AVERROR_EOF then Except.error ret
  else Except.ok ()

/-- `isFatal ret` holds exactly when `format_av_error ret` terminates the
process. -/
def isFatal (ret : Int) : Bool :=
  match format_av_error ret with
  | Except.error _ => true
  | Except.ok _ => false

/-- One result of `av_read_frame`: a packet belonging to stream `stream`
(return code `0`), or a bare return code. -/
inductive ReadRes
  | pkt (stream : Nat)
  | code (c : Int)
deriving DecidableEq

/-- One result of `avcodec_receive_frame`: a decoded frame with `nb`
samples (return code `0`), or a bare return code. -/
inductive RecvRes
  | frame (nb : Nat)
  | code (c : Int)
deriving DecidableEq

/-- One result of `swr_convert`: its return code `ret` and the bytes `out`
it wrote at the start of the scratch buffer. -/
structure ConvRes where
  ret : Int
  out : List Nat
deriving DecidableEq

/-- The state of `FFMPEG_decode`: the pending external-call traces, the
function's local variables (Main.cpp lines 51-56), and ghost
instrumentation.  The pending `avcodec_receive_frame` trace is passed to
`pump` separately because the loop recurses on it. -/
structure DecSt where
  reads : List ReadRes
  sends : List Int
  allocs : List Int
  convs : List ConvRes
  /-- `std::vector<uint8_t> buffer` (line 56): the output byte buffer. -/
  buffer : List Nat
  /-- `int line_size` (line 53). -/
  lineSize : Nat
  /-- `int last_nb_samples` (line 54). -/
  lastNb : Nat
  /-- `frame->nb_samples` of the most recently received frame (0 after
  `av_frame_alloc`). -/
  frameNb : Nat
  /-- the bytes behind `pBufferData` (empty until the first allocation). -/
  scratch : List Nat
  /-- `packet->stream_index` of the most recently read packet. -/
  packetStream : Nat
  /-- ghost: number of `av_samples_alloc` calls. -/
  allocCount : Nat
  /-- ghost: number of scratch-buffer release calls (the source has none). -/
  freeCount : Nat
  /-- ghost: stream indices of all packets fed to `avcodec_send_packet`. -/
  sentStreams : List Nat
  /-- ghost: the byte blocks appended to `buffer`, in order. -/
  chunks : List (List Nat)
deriving DecidableEq

/-- Result of a run of `FFMPEG_decode`: either the process terminated via
`format_av_error`'s `exit` with the given code, or the function returned
normally.  Both carry the unconsumed receive trace and the final state. -/
inductive PumpOut
  | aborted (code : Int) (recvs : List RecvRes) (st : DecSt)
  | finished (recvs : List RecvRes) (st : DecSt)
deriving DecidableEq

/-- Final state of a run, whichever way it ended. -/
def PumpOut.st : PumpOut → DecSt
  | .aborted _ _ s => s
  | .finished _ s => s

/-- Whether the run ended in a `format_av_error` process exit. -/
def PumpOut.isAborted : PumpOut → Bool
  | .aborted _ _ _ => true
  | .finished _ _ => false

/-- Head of the `avcodec_send_packet` trace (exhausted: success). -/
def sendHead : List Int → Int × List Int
  | [] => (0, [])
  | s :: rest => (s, rest)

/-- Head of the `av_samples_alloc` trace (exhausted: success). -/
def allocHead : List Int → Int × List Int
  | [] => (0, [])
  | a :: rest => (a, rest)

/-- Head of the `swr_convert` trace (exhausted: success, no bytes). -/
def convHead : List ConvRes → ConvRes × List ConvRes
  | [] => (⟨0, []⟩, [])
  | c :: rest => (c, rest)

/-- Writing `new` at the start of `base` without changing the buffer's
length: what `swr_convert` does to the scratch allocation. -/
def overwriteFront (base new : List Nat) : List Nat :=
  new.take base.length ++ base.drop new.length

/-- Outcome of the `AVERROR(EAGAIN)` branch of the inner do/while
(Main.cpp lines 73-88). -/
inductive ReadPhaseOut
  | fatal (code : Int) (st : DecSt)
  | atEof (st : DecSt)
  | go (st : DecSt)

/-- Main.cpp lines 73-88: if the previous `avcodec_receive_frame` returned
`AVERROR(EAGAIN)`, read the next packet (`av_read_frame`), abort on a fatal
code (line 77), set `is_eof` and break on `AVERROR_EOF` (lines 79-83), and
otherwise feed the packet to the decoder (`avcodec_send_packet`, lines
85-87).  With any other previous result the loop goes straight to
`avcodec_receive_frame`. -/
def readPhase (er : Int) (st : DecSt) : ReadPhaseOut :=
  if er = AVERROR_EAGAIN then
    match st.reads with
    | [] => ReadPhaseOut.atEof st
    | r :: rs =>
      let rc : Int := match r with | ReadRes.pkt _ => 0 | ReadRes.code c => c
      let st1 : DecSt :=
        { st with reads := rs,
                  packetStream := (match r with
                    | ReadRes.pkt s => s
                    | ReadRes.code _ => st.packetStream) }
      if isFatal rc then ReadPhaseOut.fatal rc st1
      else if rc = AVERROR_EOF then ReadPhaseOut.atEof st1
      else
        let (s, ss) := sendHead st1.sends
        let st2 : DecSt :=
          { st1 with sends := ss,
                     sentStreams := st1.sentStreams ++ [st1.packetStream] }
        if isFatal s then ReadPhaseOut.fatal s st2
        else ReadPhaseOut.go st2
  else ReadPhaseOut.go st

/-- Outcome of the frame-processing tail of the loop body (Main.cpp lines
97-123): process terminated (`halted`), `break` out of the loop (`brk`),
or loop around with the given `error_result` (`cont`). -/
inductive ProcOut
  | halted (code : Int) (st : DecSt)
  | brk (st : DecSt)
  | cont (er : Int) (st : DecSt)

/-- Main.cpp lines 97-123.  If the frame's sample count differs from
`last_nb_samples`, call `av_samples_alloc` for 1 channel (mono downmix),
`frame->nb_samples` samples, 16-bit signed target format — on success the
new scratch buffer has line size `2 * nb_samples`; `last_nb_samples` is
updated unconditionally (lines 97-109).  The previous scratch allocation is
not released (the ghost `freeCount` is untouched: no `av_freep` exists in
the source).  Then `format_av_error` (line 111), `swr_convert` writing into
the scratch buffer (lines 113-114), `format_av_error` (line 116), the
`break` on `AVERROR(EAGAIN)`/`AVERROR_EOF` (lines 118-119; the `else if`
of lines 120-121 is unreachable because line 116 already aborted on every
other negative code), and finally the append of `line_size` bytes from the
scratch buffer to the output buffer (line 123). -/
def procPhase (er : Int) (st : DecSt) : ProcOut :=
  let (er1, st1) :=
    if st.frameNb ≠ st.lastNb then
      let (a, aRest) := allocHead st.allocs
      let stA : DecSt :=
        { st with allocs := aRest,
                  allocCount := st.allocCount + 1, lastNb := st.frameNb }
      if 0 ≤ a then
        (a, { stA with lineSize := 2 * st.frameNb,
                       scratch := List.replicate (2 * st.frameNb) 0 })
      else (a, stA)
    else (er, st)
  if isFatal er1 then ProcOut.halted er1 st1
  else
    let (cv, cRest) := convHead st1.convs
    let st2 : DecSt :=
      { st1 with convs := cRest,
                 scratch := if 0 ≤ cv.ret then overwriteFront st1.scratch cv.out
                            else st1.scratch }
    if isFatal cv.ret then ProcOut.halted cv.ret st2
    else if cv.ret = AVERROR_EAGAIN ∨ cv.ret = AVERROR_EOF then ProcOut.brk st2
    else ProcOut.cont cv.ret
      { st2 with buffer := st2.buffer ++ st2.scratch,
                 chunks := st2.chunks ++ [st2.scratch] }

/-- Main.cpp lines 69-124: the decode loop.  One call models one pass
through the inner do/while body starting with `error_result = er`; the
recursion `pump AVERROR_EAGAIN …` is the do/while repeating, the recursion
`pump er2 …` after `procPhase` is the outer `while` looping around, and an
exhausted receive trace aborts with `AVERROR(EINVAL)` (see the header
comment). -/
def pump (er : Int) (recvs : List RecvRes) (st : DecSt) : PumpOut :=
  match recvs with
  | [] =>
    match readPhase er st with
    | ReadPhaseOut.fatal c st1 => PumpOut.aborted c [] st1
    | ReadPhaseOut.atEof st1 => PumpOut.finished [] st1
    | ReadPhaseOut.go st2 => PumpOut.aborted (-22) [] st2
  | hd :: rest =>
    match readPhase er st with
    | ReadPhaseOut.fatal c st1 => PumpOut.aborted c (hd :: rest) st1
    | ReadPhaseOut.atEof st1 => PumpOut.finished (hd :: rest) st1
    | ReadPhaseOut.go st2 =>
      match hd with
      | RecvRes.frame nb =>
        match procPhase 0 { st2 with frameNb := nb } with
        | ProcOut.halted c st3 => PumpOut.aborted c rest st3
        | ProcOut.brk st3 => PumpOut.finished rest st3
        | ProcOut.cont er2 st3 => pump er2 rest st3
      | RecvRes.code c =>
        if c = AVERROR_EAGAIN then pump AVERROR_EAGAIN rest st2
        else
          match procPhase c st2 with
          | ProcOut.halted c2 st3 => PumpOut.aborted c2 rest st3
          | ProcOut.brk st3 => PumpOut.finished rest st3
          | ProcOut.cont er2 st3 => pump er2 rest st3

/-- Main.cpp lines 49-127, `FFMPEG_decode`.  Lines 58-59 allocate the
packet and the frame (all locals zeroed), line 61 reads the first packet
(`format_av_error` on line 62 aborts only on a fatal code — an immediate
`AVERROR_EOF` passes and is *not* checked against end of stream here),
line 64 sends that packet to the decoder (line 65 checks it), line 67
resets `error_result` to `0`, and lines 69-124 run the loop. -/
def FFMPEG_decode (reads : List ReadRes) (sends : List Int) (recvs : List RecvRes)
    (allocs : List Int) (convs : List ConvRes) : PumpOut :=
  let st0 : DecSt :=
    { reads := reads, sends := sends, allocs := allocs, convs := convs,
      buffer := [], lineSize := 0, lastNb := 0, frameNb := 0, scratch := [],
      packetStream := 0, allocCount := 0, freeCount := 0, sentStreams := [], chunks := [] }
  let (rc, st1) :=
    match st0.reads with
    | [] => ((AVERROR_EOF : Int), st0)
    | r :: rs =>
      ((match r with | ReadRes.pkt _ => (0 : Int) | ReadRes.code c => c),
       { st0 with reads := rs,
                  packetStream := (match r with
                    | ReadRes.pkt s => s
                    | ReadRes.code _ => st0.packetStream) })
  if isFatal rc then PumpOut.aborted rc recvs st1
  else
    let (s, ss) := sendHead st1.sends
    let st2 : DecSt :=
      { st1 with sends := ss,
                 sentStreams := st1.sentStreams ++ [st1.packetStream] }
    if isFatal s then PumpOut.aborted s recvs st2
    else pump 0 recvs st2

/-- The codec type of one stream, as inspected on Main.cpp line 191. -/
inductive MediaType
  | audio
  | video
  | other
deriving DecidableEq

/-- Main.cpp lines 185-196: the index of the first stream whose
`codecpar->codec_type` is `AVMEDIA_TYPE_AUDIO` (`none` models the loop
leaving `video_stream_idx == -1`). -/
def findAudioIdx : List MediaType → Option Nat
  | [] => none
  | MediaType.audio :: _ => some 0
  | _ :: rest => (findAudioIdx rest).map (· + 1)

/-- The pipeline's output value (Main.cpp lines 21-26). -/
structure SoundData where
  buffer : List Nat
  sample_rate : Int
  channels : Int
deriving DecidableEq

/-- Main.cpp lines 150-253, `read_audio_into_buffer`, from stream selection
onward: the earlier setup calls (`avio_alloc_context`,
`avformat_open_input`, `avformat_find_stream_info`, codec and resampler
setup) are taken as succeeded — each of their failure paths is the same
`format_av_error` process-exit policy proved about the pump.  If no stream
has audio type, line 199 reports `"FFMPEG could not find any audio
stream!"` and exits with `-1` (modelled as `Except.error`); otherwise the
decode pump runs and the result is assembled with `channels = 1`
(`RESAMPLE_TO_MONO` is defined, lines 236-237). -/
def read_audio_into_buffer (streams : List MediaType) (sample_rate : Int)
    (reads : List ReadRes) (sends : List Int) (recvs : List RecvRes)
    (allocs : List Int) (convs : List ConvRes) : Except (Int × String) SoundData :=
  match findAudioIdx streams with
  | none => Except.error (-1, "FFMPEG could not find any audio stream!")
  | some _ =>
    match FFMPEG_decode reads sends recvs allocs convs with
    | PumpOut.aborted c _ _ => Except.error (c, "av_strerror")
    | PumpOut.finished _ st =>
      Except.ok { buffer := st.buffer, sample_rate := sample_rate, channels := 1 }

/-- The state of the `FILE*` behind the custom I/O callbacks: its read
position and its (known) total size — `fopen(filename, "rb")` on a regular
file. -/
structure FileSt where
  pos : Int
  size : Nat
deriving DecidableEq

/-- FFmpeg's sentinel origin `0x10000` asking the seek callback for the
total size of the source. -/
def AVSEEK_SIZE : Int := 65536

/-- `fseek` on the model file: origin `0` (`SEEK_SET`), `1` (`SEEK_CUR`),
`2` (`SEEK_END`); returns `0` on success and `-1` on failure, moving the
position on success. -/
def fseekFile (f : FileSt) (off : Int) (origin : Int) : Int × FileSt :=
  if origin = 0 then
    if 0 ≤ off then (0, { f with pos := off }) else (-1, f)
  else if origin = 1 then
    if 0 ≤ f.pos + off then (0, { f with pos := f.pos + off }) else (-1, f)
  else if origin = 2 then
    if 0 ≤ (f.size : Int) + off then (0, { f with pos := (f.size : Int) + off }) else (-1, f)
  else (-1, f)

/-- Main.cpp lines 139-148, `SeekCallback`: origin `0x10000` returns `-1`
unconditionally (the file's size is never consulted); any other origin
forwards to `fseek` and returns `fseek`'s own return code. -/
def SeekCallback (f : FileSt) (offset : Int) (origin : Int) : Int × FileSt :=
  if origin = AVSEEK_SIZE then (-1, f)
  else fseekFile f offset origin

/-- A well-formed decode scenario: for each frame, the number of
`AVERROR(EAGAIN)` results `avcodec_receive_frame` yields before the frame
(one packet is read and sent per `EAGAIN`), and the frame's `nb_samples`. -/
def scriptRecvs : List (Nat × Nat) → List RecvRes
  | [] => []
  | (e, nb) :: rest =>
    List.replicate e (RecvRes.code AVERROR_EAGAIN) ++ RecvRes.frame nb :: scriptRecvs rest

/-- Total number of `AVERROR(EAGAIN)` receive results in a scenario. -/
def scriptEagains (script : List (Nat × Nat)) : Nat := (script.map Prod.fst).sum

/-- The `av_read_frame` trace of a scenario: the initial packet of line 61,
one packet per `EAGAIN`, then end of stream. -/
def scriptReads (script : List (Nat × Nat)) : List ReadRes :=
  ReadRes.pkt 0 :: (List.replicate (scriptEagains script) (ReadRes.pkt 0)
    ++ [ReadRes.code AVERROR_EOF])

/-- Number of entries of a sample-count sequence that differ from their
predecessor (`last` seeds the comparison, as `last_nb_samples = 0` does on
Main.cpp line 54). -/
def countChanges (last : Nat) : List Nat → Nat
  | [] => 0
  | nb :: rest => (if nb ≠ last then 1 else 0) + countChanges nb rest

theorem pump_eq (er : Int) (recvs : List RecvRes) (st : DecSt) :
    pump er recvs st =
      match readPhase er st with
      | ReadPhaseOut.fatal c st1 => PumpOut.aborted c recvs st1
      | ReadPhaseOut.atEof st1 => PumpOut.finished recvs st1
      | ReadPhaseOut.go st2 =>
        match recvs with
        | [] => PumpOut.aborted (-22) [] st2
        | RecvRes.frame nb :: rest =>
          match procPhase 0 { st2 with frameNb := nb } with
          | ProcOut.halted c st3 => PumpOut.aborted c rest st3
          | ProcOut.brk st3 => PumpOut.finished rest st3
          | ProcOut.cont er2 st3 => pump er2 rest st3
        | RecvRes.code c :: rest =>
          if c = AVERROR_EAGAIN then pump AVERROR_EAGAIN rest st2
          else
            match procPhase c st2 with
            | ProcOut.halted c2 st3 => PumpOut.aborted c2 rest st3
            | ProcOut.brk st3 => PumpOut.finished rest st3
            | ProcOut.cont er2 st3 => pump er2 rest st3 := by
  cases recvs with
  | nil => rfl
  | cons hd tl => cases hd <;> rfl

theorem isFatal_iff (r : Int) :
    isFatal r = true ↔ (r < 0 ∧ r ≠ AVERROR_EAGAIN ∧ r ≠ AVERROR_EOF) := by
  unfold isFatal format_av_error
  by_cases h : r < 0 ∧ r ≠ AVERROR_EAGAIN ∧ r ≠ AVERROR_EOF <;> simp [h]

theorem isFatal_nonneg {r : Int} (h : 0 ≤ r) : isFatal r = false := by
  cases hb : isFatal r
  · rfl
  · exact absurd ((isFatal_iff r).mp hb).1 (by omega)

theorem isFatal_zero : isFatal 0 = false := by decide

theorem isFatal_eof : isFatal AVERROR_EOF = false := by decide

theorem isFatal_eagain : isFatal AVERROR_EAGAIN = false := by decide

theorem ne_eagain_of_nonneg {r : Int} (h : 0 ≤ r) : r ≠ AVERROR_EAGAIN := by
  unfold AVERROR_EAGAIN; omega

theorem ne_eof_of_nonneg {r : Int} (h : 0 ≤ r) : r ≠ AVERROR_EOF := by
  unfold AVERROR_EOF; omega

theorem overwriteFront_length (base new : List Nat) :
    (overwriteFront base new).length = base.length := by
  unfold overwriteFront
  simp
  omega

theorem overwriteFront_exact (base new : List Nat) (h : new.length = base.length) :
    overwriteFront base new = new := by
  unfold overwriteFront
  rw [← h, List.take_length]
  have hd : base.drop new.length = [] := List.drop_eq_nil_of_le (by omega)
  simp [hd]

theorem pump_eagain_absorb (e : Nat) :
    ∀ (st : DecSt) (rs : List RecvRes) (rdRest : List ReadRes),
    st.reads = List.replicate e (ReadRes.pkt 0) ++ rdRest →
    st.sends = [] → st.packetStream = 0 →
    pump AVERROR_EAGAIN (List.replicate e (RecvRes.code AVERROR_EAGAIN) ++ rs) st
      = pump AVERROR_EAGAIN rs
          { st with reads := rdRest, sentStreams := st.sentStreams ++ List.replicate e 0 } := by
  induction e with
  | zero =>
    intro st rs rdRest hreads hsends hps
    simp only [List.replicate, List.nil_append, List.append_nil] at *
    subst hreads
    rfl
  | succ e ih =>
    intro st rs rdRest hreads hsends hps
    rw [List.replicate_succ, List.cons_append] at hreads ⊢
    rw [pump_eq]
    simp only [readPhase, if_pos rfl, hreads]
    have h0eof : ¬((0 : Int) = AVERROR_EOF) := by decide
    simp only [isFatal_zero, Bool.false_eq_true, if_false, hsends, sendHead, h0eof, hps]
    simp only [if_true]
    rw [ih _ rs rdRest (by simp) (by simp) (by simp)]
    simp [List.replicate_succ, List.append_assoc]

theorem procPhase_frame (st : DecSt) (nb : Nat) (cv : ConvRes) (cvRest : List ConvRes)
    (hal : st.allocs = []) (hcv : st.convs = cv :: cvRest)
    (hret : 0 ≤ cv.ret) (hlen : cv.out.length = 2 * nb)
    (hscr : st.scratch.length = st.lineSize) (hls : st.lineSize = 2 * st.lastNb)
    (hfr : st.frameNb = nb) :
    procPhase 0 st = ProcOut.cont cv.ret
      { st with convs := cvRest, lastNb := nb, lineSize := 2 * nb, scratch := cv.out,
                buffer := st.buffer ++ cv.out, chunks := st.chunks ++ [cv.out],
                allocCount := st.allocCount + (if nb ≠ st.lastNb then 1 else 0) } := by
  unfold procPhase
  by_cases hne : st.frameNb = st.lastNb
  · -- no reallocation: same sample count
    rw [if_neg (by simp [hne])]
    simp only [isFatal_zero, Bool.false_eq_true, if_false, hcv, convHead]
    rw [if_pos hret]
    have hex : overwriteFront st.scratch cv.out = cv.out := by
      apply overwriteFront_exact
      rw [hlen, hscr, hls, ← hfr, hne]
    rw [hex]
    rw [if_neg (by simp [isFatal_nonneg hret])]
    rw [if_neg (by push_neg; exact ⟨ne_eagain_of_nonneg hret, ne_eof_of_nonneg hret⟩)]
    have hif : (if nb ≠ st.lastNb then 1 else 0) = 0 := by simp [← hfr, hne]
    simp [hif, hfr ▸ hne, ← hfr, hne, hls]
  · rw [if_pos hne]
    simp only [hal, allocHead]
    rw [if_pos (by omega : (0:Int) ≤ 0)]
    simp only [isFatal_zero, Bool.false_eq_true, if_false, hcv, convHead]
    rw [if_pos hret]
    have hex : overwriteFront (List.replicate (2 * st.frameNb) 0) cv.out = cv.out := by
      apply overwriteFront_exact
      simp [hlen, hfr]
    rw [hex]
    rw [if_neg (by simp [isFatal_nonneg hret])]
    rw [if_neg (by push_neg; exact ⟨ne_eagain_of_nonneg hret, ne_eof_of_nonneg hret⟩)]
    have hif : (if nb ≠ st.lastNb then 1 else 0) = 1 := by simp [← hfr]; exact hne
    simp [hif, hfr]

theorem pump_frame (er : Int) (nb : Nat) (tail : List RecvRes) (st : DecSt)
    (cv : ConvRes) (cvRest : List ConvRes)
    (her : er ≠ AVERROR_EAGAIN)
    (hal : st.allocs = []) (hcv : st.convs = cv :: cvRest)
    (hret : 0 ≤ cv.ret) (hlen : cv.out.length = 2 * nb)
    (hscr : st.scratch.length = st.lineSize) (hls : st.lineSize = 2 * st.lastNb) :
    pump er (RecvRes.frame nb :: tail) st = pump cv.ret tail
      { st with convs := cvRest, frameNb := nb, lastNb := nb, lineSize := 2 * nb,
                scratch := cv.out,
                buffer := st.buffer ++ cv.out, chunks := st.chunks ++ [cv.out],
                allocCount := st.allocCount + (if nb ≠ st.lastNb then 1 else 0) } := by
  rw [pump_eq]
  simp only [readPhase, if_neg her]
  rw [procPhase_frame _ nb cv cvRest (by simp [hal]) (by simp [hcv]) hret hlen
    (by simp [hscr]) (by simp [hls]) (by simp)]

theorem pump_frame_eagain (nb : Nat) (tail : List RecvRes) (st : DecSt)
    (cv : ConvRes) (cvRest : List ConvRes) (rdRest : List ReadRes)
    (hrd : st.reads = ReadRes.pkt 0 :: rdRest) (hsends : st.sends = [])
    (hps : st.packetStream = 0)
    (hal : st.allocs = []) (hcv : st.convs = cv :: cvRest)
    (hret : 0 ≤ cv.ret) (hlen : cv.out.length = 2 * nb)
    (hscr : st.scratch.length = st.lineSize) (hls : st.lineSize = 2 * st.lastNb) :
    pump AVERROR_EAGAIN (RecvRes.frame nb :: tail) st = pump cv.ret tail
      { st with reads := rdRest, sentStreams := st.sentStreams ++ [0],
                convs := cvRest, frameNb := nb, lastNb := nb, lineSize := 2 * nb,
                scratch := cv.out,
                buffer := st.buffer ++ cv.out, chunks := st.chunks ++ [cv.out],
                allocCount := st.allocCount + (if nb ≠ st.lastNb then 1 else 0) } := by
  rw [pump_eq]
  have h0eof : ¬((0 : Int) = AVERROR_EOF) := by decide
  simp only [readPhase, if_pos rfl, hrd, isFatal_zero, Bool.false_eq_true, if_false,
    hsends, sendHead, h0eof, hps, if_true]
  rw [procPhase_frame _ nb cv cvRest (by simp [hal]) (by simp [hcv]) hret hlen
    (by simp [hscr]) (by simp [hls]) (by simp)]

theorem pump_code_eagain (er : Int) (tail : List RecvRes) (st : DecSt)
    (her : er ≠ AVERROR_EAGAIN) :
    pump er (RecvRes.code AVERROR_EAGAIN :: tail) st = pump AVERROR_EAGAIN tail st := by
  rw [pump_eq]
  simp [readPhase, her]

theorem pump_eagain_eof (st : DecSt) (tail : List RecvRes) (rdRest : List ReadRes)
    (hrd : st.reads = ReadRes.code AVERROR_EOF :: rdRest) :
    pump AVERROR_EAGAIN tail st = PumpOut.finished tail { st with reads := rdRest } := by
  rw [pump_eq]
  simp [readPhase, hrd, isFatal_eof]

theorem pump_script (script : List (Nat × Nat)) :
    ∀ (convs : List ConvRes) (er : Int) (st : DecSt),
    er ≠ AVERROR_EAGAIN →
    List.Forall₂ (fun (p : Nat × Nat) (c : ConvRes) => 0 ≤ c.ret ∧ c.out.length = 2 * p.2)
      script convs →
    st.sends = [] → st.allocs = [] → st.convs = convs → st.packetStream = 0 →
    st.reads = List.replicate (scriptEagains script) (ReadRes.pkt 0)
      ++ [ReadRes.code AVERROR_EOF] →
    st.scratch.length = st.lineSize → st.lineSize = 2 * st.lastNb →
    ∃ stf,
      pump er (scriptRecvs script ++ [RecvRes.code AVERROR_EAGAIN]) st
        = PumpOut.finished [] stf ∧
      stf.buffer = st.buffer ++ (convs.map ConvRes.out).flatten ∧
      stf.chunks = st.chunks ++ convs.map ConvRes.out ∧
      stf.allocCount = st.allocCount + countChanges st.lastNb (script.map Prod.snd) ∧
      stf.freeCount = st.freeCount := by
  induction script with
  | nil =>
    intro convs er st her hf2 hsends hal hcv hps hreads hscr hls
    cases hf2
    have hreads2 : st.reads = ReadRes.code AVERROR_EOF :: [] := by
      simpa [scriptEagains] using hreads
    rw [scriptRecvs, List.nil_append, pump_code_eagain er _ st her,
        pump_eagain_eof st [] [] hreads2]
    exact ⟨_, rfl, by simp, by simp, by simp [countChanges], rfl⟩
  | cons hd rest ih =>
    obtain ⟨e, nb⟩ := hd
    intro convs er st her hf2 hsends hal hcv hps hreads hscr hls
    obtain ⟨cv, cvRest, hcvh, hf2rest, rfl⟩ :
        ∃ cv cvRest, (0 ≤ cv.ret ∧ cv.out.length = 2 * nb) ∧
          List.Forall₂ (fun (p : Nat × Nat) (c : ConvRes) => 0 ≤ c.ret ∧ c.out.length = 2 * p.2)
            rest cvRest ∧ convs = cv :: cvRest := by
      cases hf2 with
      | cons h hrest => exact ⟨_, _, h, hrest, rfl⟩
    have hEag : scriptEagains ((e, nb) :: rest) = e + scriptEagains rest := by
      simp [scriptEagains]
    rw [hEag] at hreads
    rw [scriptRecvs, List.append_assoc, List.cons_append]
    cases e with
    | zero =>
      rw [Nat.zero_add] at hreads
      simp only [List.replicate_zero, List.nil_append]
      rw [pump_frame er nb _ st cv cvRest her hal hcv hcvh.1 hcvh.2 hscr hls]
      obtain ⟨stf, hrun, hbuf, hchk, hac, hfc⟩ :=
        ih cvRest cv.ret
          { st with convs := cvRest, frameNb := nb, lastNb := nb, lineSize := 2 * nb,
                    scratch := cv.out, buffer := st.buffer ++ cv.out,
                    chunks := st.chunks ++ [cv.out],
                    allocCount := st.allocCount + (if nb ≠ st.lastNb then 1 else 0) }
          (ne_eagain_of_nonneg hcvh.1) hf2rest hsends hal rfl hps hreads hcvh.2 rfl
      refine ⟨stf, hrun, ?_, ?_, ?_, ?_⟩
      · rw [hbuf]; simp [List.append_assoc]
      · rw [hchk]; simp [List.append_assoc]
      · rw [hac]; simp only [List.map_cons, countChanges]; simp; omega
      · exact hfc
    | succ e2 =>
      have hsplit : e2 + 1 + scriptEagains rest = e2 + (scriptEagains rest + 1) := by omega
      rw [hsplit, List.replicate_add, List.replicate_succ, List.append_assoc,
        List.cons_append] at hreads
      rw [List.replicate_succ, List.cons_append]
      rw [pump_code_eagain er _ st her]
      rw [pump_eagain_absorb e2 st _ _ hreads hsends hps]
      rw [pump_frame_eagain nb _
        { st with reads := ReadRes.pkt 0 :: (List.replicate (scriptEagains rest)
                    (ReadRes.pkt 0) ++ [ReadRes.code AVERROR_EOF]),
                  sentStreams := st.sentStreams ++ List.replicate e2 0 }
        cv cvRest
        (List.replicate (scriptEagains rest) (ReadRes.pkt 0) ++ [ReadRes.code AVERROR_EOF])
        rfl hsends hps hal hcv hcvh.1 hcvh.2 hscr hls]
      obtain ⟨stf, hrun, hbuf, hchk, hac, hfc⟩ :=
        ih cvRest cv.ret
          { st with reads := List.replicate (scriptEagains rest) (ReadRes.pkt 0)
                      ++ [ReadRes.code AVERROR_EOF],
                    sentStreams := (st.sentStreams ++ List.replicate e2 0) ++ [0],
                    convs := cvRest, frameNb := nb, lastNb := nb, lineSize := 2 * nb,
                    scratch := cv.out, buffer := st.buffer ++ cv.out,
                    chunks := st.chunks ++ [cv.out],
                    allocCount := st.allocCount + (if nb ≠ st.lastNb then 1 else 0) }
          (ne_eagain_of_nonneg hcvh.1) hf2rest hsends hal rfl hps rfl hcvh.2 rfl
      refine ⟨stf, ?_, ?_, ?_, ?_, ?_⟩
      · exact hrun
      · rw [hbuf]; simp [List.append_assoc]
      · rw [hchk]; simp [List.append_assoc]
      · rw [hac]; simp only [List.map_cons, countChanges]; simp; omega
      · exact hfc

theorem readPhase_fatal (er : Int) (st : DecSt) (c : Int) (st1 : DecSt)
    (h : readPhase er st = ReadPhaseOut.fatal c st1) : isFatal c = true := by
  unfold readPhase at h
  split at h
  · split at h
    · exact absurd h (by simp)
    · dsimp only at h
      split at h
      · next hf => cases h; exact hf
      · split at h
        · exact absurd h (by simp)
        · split at h
          · next hf => cases h; exact hf
          · exact absurd h (by simp)
  · exact absurd h (by simp)

theorem procPhase_halted (er : Int) (st : DecSt) (c : Int) (st1 : DecSt)
    (h : procPhase er st = ProcOut.halted c st1) : isFatal c = true := by
  unfold procPhase at h
  repeat' split at h
  all_goals
    first
      | (cases h; assumption)
      | exact absurd h (by simp)

theorem pump_aborted_fatal (recvs : List RecvRes) :
    ∀ (er : Int) (st : DecSt) (c : Int) (rz : List RecvRes) (stf : DecSt),
    pump er recvs st = PumpOut.aborted c rz stf → isFatal c = true := by
  induction recvs with
  | nil =>
    intro er st c rz stf h
    rw [pump_eq] at h
    split at h
    · next heq => cases h; exact readPhase_fatal _ _ _ _ heq
    · exact absurd h (by simp)
    · cases h; decide
  | cons hd tl ih =>
    intro er st c rz stf h
    rw [pump_eq] at h
    split at h
    · next heq => cases h; exact readPhase_fatal _ _ _ _ heq
    · exact absurd h (by simp)
    · cases hd with
      | frame nb =>
        dsimp only at h
        split at h
        · next heq2 => cases h; exact procPhase_halted _ _ _ _ heq2
        · exact absurd h (by simp)
        · exact ih _ _ _ _ _ h
      | code cc =>
        dsimp only at h
        split at h
        · exact ih _ _ _ _ _ h
        · split at h
          · next heq2 => cases h; exact procPhase_halted _ _ _ _ heq2
          · exact absurd h (by simp)
          · exact ih _ _ _ _ _ h

theorem FFMPEG_decode_aborted_fatal (reads : List ReadRes) (sends : List Int)
    (recvs : List RecvRes) (allocs : List Int) (convs : List ConvRes)
    (c : Int) (rz : List RecvRes) (stf : DecSt)
    (h : FFMPEG_decode reads sends recvs allocs convs = PumpOut.aborted c rz stf) :
    isFatal c = true := by
  unfold FFMPEG_decode at h
  dsimp only at h
  repeat' split at h
  all_goals
    first
      | (cases h; assumption)
      | exact pump_aborted_fatal _ _ _ _ _ _ h

theorem decode_start (R : List ReadRes) (recvs : List RecvRes)
    (allocs : List Int) (convs : List ConvRes) :
    FFMPEG_decode (ReadRes.pkt 0 :: R) [] recvs allocs convs
      = pump 0 recvs
          { reads := R, sends := [], allocs := allocs, convs := convs, buffer := [],
            lineSize := 0, lastNb := 0, frameNb := 0, scratch := [], packetStream := 0,
            allocCount := 0, freeCount := 0, sentStreams := [0], chunks := [] } := by
  unfold FFMPEG_decode
  simp [isFatal_zero, sendHead]

theorem findAudioIdx_eq_none (streams : List MediaType)
    (h : ∀ s ∈ streams, s ≠ MediaType.audio) : findAudioIdx streams = none := by
  induction streams with
  | nil => rfl
  | cons hd tl ih =>
    have htl : ∀ s ∈ tl, s ≠ MediaType.audio := fun s hs => h s (by simp [hs])
    cases hd with
    | audio => exact absurd rfl (h MediaType.audio (by simp))
    | video => simp [findAudioIdx, ih htl]
    | other => simp [findAudioIdx, ih htl]

theorem findAudioIdx_of_mem (streams : List MediaType)
    (h : MediaType.audio ∈ streams) : ∃ k, findAudioIdx streams = some k := by
  induction streams with
  | nil => simp at h
  | cons hd tl ih =>
    cases hd with
    | audio => exact ⟨0, rfl⟩
    | video =>
      obtain ⟨k, hk⟩ := ih (by simpa using h)
      exact ⟨k + 1, by simp [findAudioIdx, hk]⟩
    | other =>
      obtain ⟨k, hk⟩ := ih (by simpa using h)
      exact ⟨k + 1, by simp [findAudioIdx, hk]⟩

theorem forall2_zero_convs (script : List (Nat × Nat)) :
    List.Forall₂ (fun (p : Nat × Nat) (c : ConvRes) => 0 ≤ c.ret ∧ c.out.length = 2 * p.2)
      script (script.map (fun p => ⟨0, List.replicate (2 * p.2) 0⟩)) := by
  induction script with
  | nil => exact List.Forall₂.nil
  | cons hd tl ih => exact List.Forall₂.cons (by simp) ih

theorem flatten_out_length (script : List (Nat × Nat)) (convs : List ConvRes)
    (h : List.Forall₂ (fun (p : Nat × Nat) (c : ConvRes) => 0 ≤ c.ret ∧ c.out.length = 2 * p.2)
      script convs) :
    ((convs.map ConvRes.out).flatten).length = 2 * (script.map Prod.snd).sum := by
  induction h with
  | nil => simp
  | cons hh _ ih =>
    simp only [List.map_cons, List.flatten_cons, List.length_append, List.sum_cons, ih, hh.2]
    ring

/-- C1: over every well-formed run of the decode pump (for each decoded
frame, any number of `NeedMoreInput` retries, then the frame; the container
ends the run), the total number of bytes appended to the output buffer is
`2 *` the sum of the `nb_samples` of the frames received from the decoder
(2 bytes per sample in the mono signed-16-bit target format): no sample is
dropped and none is duplicated, and each frame contributes exactly one
chunk. -/
theorem C1_total_samples (script : List (Nat × Nat)) (convs : List ConvRes)
    (hconvs : List.Forall₂ (fun (p : Nat × Nat) (c : ConvRes) =>
      0 ≤ c.ret ∧ c.out.length = 2 * p.2) script convs) :
    ∃ stf, FFMPEG_decode (scriptReads script) []
        (scriptRecvs script ++ [RecvRes.code AVERROR_EAGAIN]) [] convs
        = PumpOut.finished [] stf ∧
      stf.buffer.length = 2 * ((script.map Prod.snd).sum) ∧
      stf.chunks.length = script.length := by
  rw [scriptReads, decode_start]
  obtain ⟨stf, hrun, hbuf, hchk, hac, hfc⟩ :=
    pump_script script convs 0
      { reads := List.replicate (scriptEagains script) (ReadRes.pkt 0)
          ++ [ReadRes.code AVERROR_EOF],
        sends := [], allocs := [], convs := convs, buffer := [], lineSize := 0,
        lastNb := 0, frameNb := 0, scratch := [], packetStream := 0,
        allocCount := 0, freeCount := 0, sentStreams := [0], chunks := [] }
      (by decide) hconvs rfl rfl rfl rfl rfl rfl rfl
  refine ⟨stf, hrun, ?_, ?_⟩
  · rw [hbuf]
    simpa using flatten_out_length script convs hconvs
  · rw [hchk]
    simpa using hconvs.length_eq.symm

theorem C1_total_samples_witness :
    (List.Forall₂ (fun (p : Nat × Nat) (c : ConvRes) =>
      0 ≤ c.ret ∧ c.out.length = 2 * p.2)
      [(0, 3), (1, 5)] [⟨3, List.replicate 6 0⟩, ⟨5, List.replicate 10 1⟩]) ∧
    (∃ stf, FFMPEG_decode (scriptReads [(0, 3), (1, 5)]) []
        (scriptRecvs [(0, 3), (1, 5)] ++ [RecvRes.code AVERROR_EAGAIN]) []
        [⟨3, List.replicate 6 0⟩, ⟨5, List.replicate 10 1⟩]
        = PumpOut.finished [] stf ∧
      stf.buffer.length = 2 * (([(0, 3), (1, 5)].map Prod.snd).sum) ∧
      stf.chunks.length = [(0, 3), (1, 5)].length) := by
  have hf : List.Forall₂ (fun (p : Nat × Nat) (c : ConvRes) =>
      0 ≤ c.ret ∧ c.out.length = 2 * p.2)
      [(0, 3), (1, 5)] [⟨3, List.replicate 6 0⟩, ⟨5, List.replicate 10 1⟩] :=
    List.Forall₂.cons (by simp) (List.Forall₂.cons (by simp) List.Forall₂.nil)
  exact ⟨hf, C1_total_samples [(0, 3), (1, 5)] _ hf⟩

/-- C2: over every well-formed run, the number of `av_samples_alloc` calls
made by the pump equals the number of positions in the sample-count
sequence that differ from their predecessor (seeded with the initial
`last_nb_samples = 0`): the scratch buffer is (re)allocated exactly when
the frame's sample count differs from the previously seen one, and equal
consecutive counts reuse the buffer with no allocation. -/
theorem C2_realloc_iff_count_changes (script : List (Nat × Nat)) :
    ∃ stf, FFMPEG_decode (scriptReads script) []
        (scriptRecvs script ++ [RecvRes.code AVERROR_EAGAIN]) []
        (script.map (fun p => ⟨0, List.replicate (2 * p.2) 0⟩))
        = PumpOut.finished [] stf ∧
      stf.allocCount = countChanges 0 (script.map Prod.snd) := by
  rw [scriptReads, decode_start]
  obtain ⟨stf, hrun, hbuf, hchk, hac, hfc⟩ :=
    pump_script script _ 0
      { reads := List.replicate (scriptEagains script) (ReadRes.pkt 0)
          ++ [ReadRes.code AVERROR_EOF],
        sends := [], allocs := [],
        convs := script.map (fun p => ⟨0, List.replicate (2 * p.2) 0⟩),
        buffer := [], lineSize := 0,
        lastNb := 0, frameNb := 0, scratch := [], packetStream := 0,
        allocCount := 0, freeCount := 0, sentStreams := [0], chunks := [] }
      (by decide) (forall2_zero_convs script) rfl rfl rfl rfl rfl rfl rfl
  exact ⟨stf, hrun, by simpa using hac⟩

/-- C3: the pump releases no scratch-buffer allocation at all.  On a run
with two frames of different sample counts it calls `av_samples_alloc`
twice, performs zero release calls (there is no `av_freep` in
`FFMPEG_decode`: the ghost `freeCount` counts release sites and the model
of lines 49-127 contains none), and returns normally with both allocations
still live. -/
theorem C3_allocations_never_released :
    (PumpOut.st (FFMPEG_decode [ReadRes.pkt 0, ReadRes.code AVERROR_EOF] []
      [RecvRes.frame 3, RecvRes.frame 5, RecvRes.code AVERROR_EAGAIN] [] [])).allocCount = 2 ∧
    (PumpOut.st (FFMPEG_decode [ReadRes.pkt 0, ReadRes.code AVERROR_EOF] []
      [RecvRes.frame 3, RecvRes.frame 5, RecvRes.code AVERROR_EAGAIN] [] [])).freeCount = 0 ∧
    (FFMPEG_decode [ReadRes.pkt 0, ReadRes.code AVERROR_EOF] []
      [RecvRes.frame 3, RecvRes.frame 5, RecvRes.code AVERROR_EAGAIN] [] []).isAborted = false := by
  refine ⟨rfl, rfl, rfl⟩

/-- C4: the `NeedMoreInput` retry loop terminates.  A decoder that answers
every `avcodec_receive_frame` with `AVERROR(EAGAIN)` makes the pump read
and send one packet per retry; when the container's `m + 1` packets are
exhausted and `av_read_frame` reports `AVERROR_EOF`, the pump sets
`is_eof`, breaks out, and returns normally with an empty output buffer —
for every `m`. -/
theorem C4_eagain_retry_terminates (m : Nat) :
    ∃ stf, FFMPEG_decode
        (ReadRes.pkt 0 :: (List.replicate m (ReadRes.pkt 0) ++ [ReadRes.code AVERROR_EOF]))
        [] (List.replicate (m + 1) (RecvRes.code AVERROR_EAGAIN)) [] []
        = PumpOut.finished [] stf ∧ stf.buffer = [] ∧ stf.chunks = [] := by
  rw [decode_start, List.replicate_succ, pump_code_eagain 0 _ _ (by decide)]
  rw [show List.replicate m (RecvRes.code AVERROR_EAGAIN)
      = List.replicate m (RecvRes.code AVERROR_EAGAIN) ++ [] from (List.append_nil _).symm]
  rw [pump_eagain_absorb m _ [] [ReadRes.code AVERROR_EOF] rfl rfl rfl]
  rw [pump_eagain_eof _ [] [] rfl]
  exact ⟨_, rfl, rfl, rfl⟩

/-- C5: for every input whose container holds an audio stream, over every
well-formed run the produced `SoundData` has `channels = 1` (the requested
mono downmix), its byte buffer is exactly the concatenation, in stream
order, of the per-frame converted chunks (no reordering, no duplication,
no gaps), and its total length is an exact multiple of
`targetSampleWidth * targetChannels = 2 * 1` bytes. -/
theorem C5_output_buffer_shape (streams : List MediaType) (rate : Int)
    (script : List (Nat × Nat)) (convs : List ConvRes)
    (hstream : MediaType.audio ∈ streams)
    (hconvs : List.Forall₂ (fun (p : Nat × Nat) (c : ConvRes) =>
      0 ≤ c.ret ∧ c.out.length = 2 * p.2) script convs) :
    ∃ sd, read_audio_into_buffer streams rate (scriptReads script) []
        (scriptRecvs script ++ [RecvRes.code AVERROR_EAGAIN]) [] convs
        = Except.ok sd ∧
      sd.channels = 1 ∧
      sd.buffer = (convs.map ConvRes.out).flatten ∧
      sd.buffer.length % (2 * 1) = 0 := by
  obtain ⟨k, hk⟩ := findAudioIdx_of_mem streams hstream
  obtain ⟨stf, hrun, hbuf, hchk, hac, hfc⟩ :=
    pump_script script convs 0
      { reads := List.replicate (scriptEagains script) (ReadRes.pkt 0)
          ++ [ReadRes.code AVERROR_EOF],
        sends := [], allocs := [], convs := convs, buffer := [], lineSize := 0,
        lastNb := 0, frameNb := 0, scratch := [], packetStream := 0,
        allocCount := 0, freeCount := 0, sentStreams := [0], chunks := [] }
      (by decide) hconvs rfl rfl rfl rfl rfl rfl rfl
  unfold read_audio_into_buffer
  rw [hk, scriptReads, decode_start, hrun]
  refine ⟨_, rfl, rfl, ?_, ?_⟩
  · simpa using hbuf
  · have hlen := flatten_out_length script convs hconvs
    simp only [List.nil_append] at hbuf
    rw [hbuf, hlen]
    omega

theorem C5_output_buffer_shape_witness :
    (MediaType.audio ∈ [MediaType.video, MediaType.audio]) ∧
    (List.Forall₂ (fun (p : Nat × Nat) (c : ConvRes) =>
      0 ≤ c.ret ∧ c.out.length = 2 * p.2) [(0, 2)] [⟨2, [7, 8, 9, 10]⟩]) ∧
    (∃ sd, read_audio_into_buffer [MediaType.video, MediaType.audio] 48000
        (scriptReads [(0, 2)]) []
        (scriptRecvs [(0, 2)] ++ [RecvRes.code AVERROR_EAGAIN]) [] [⟨2, [7, 8, 9, 10]⟩]
        = Except.ok sd ∧
      sd.channels = 1 ∧
      sd.buffer = (([⟨2, [7, 8, 9, 10]⟩] : List ConvRes).map ConvRes.out).flatten ∧
      sd.buffer.length % (2 * 1) = 0) := by
  have hmem : MediaType.audio ∈ [MediaType.video, MediaType.audio] := by decide
  have hf : List.Forall₂ (fun (p : Nat × Nat) (c : ConvRes) =>
      0 ≤ c.ret ∧ c.out.length = 2 * p.2) [(0, 2)] [⟨2, [7, 8, 9, 10]⟩] :=
    List.Forall₂.cons (by simp) List.Forall₂.nil
  exact ⟨hmem, hf, C5_output_buffer_shape _ 48000 [(0, 2)] _ hmem hf⟩

/-- C6: the pipeline's error policy.  First: whenever a run of the decode
pump terminates the process (`PumpOut.aborted`), the exit code is a
negative value that is neither `AVERROR(EAGAIN)` nor `AVERROR_EOF` — the
two recoverable signals never abort.  Second: every pipeline step's fatal
result aborts immediately, with exit code `c` and nothing appended to the
output buffer, for every fatal `c` (negative, not `AVERROR(EAGAIN)`, not
`AVERROR_EOF`) and whatever the remaining traces hold, at each of the
seven `format_av_error` call sites: the initial `av_read_frame` (line 62),
the initial `avcodec_send_packet` (line 65), the in-loop `av_read_frame`
(line 77), the in-loop `avcodec_send_packet` (line 87),
`avcodec_receive_frame` (checked on line 111 after the do/while exits),
`av_samples_alloc` (line 111), and `swr_convert` (line 116). -/
theorem C6_fatal_iff_not_recoverable :
    (∀ (reads : List ReadRes) (sends : List Int) (recvs : List RecvRes)
       (allocs : List Int) (convs : List ConvRes) (c : Int) (rz : List RecvRes) (stf : DecSt),
       FFMPEG_decode reads sends recvs allocs convs = PumpOut.aborted c rz stf →
       c < 0 ∧ c ≠ AVERROR_EAGAIN ∧ c ≠ AVERROR_EOF) ∧
    (∀ c : Int, c < 0 → c ≠ AVERROR_EAGAIN → c ≠ AVERROR_EOF →
      (∀ (reads : List ReadRes) (sends : List Int) (recvs : List RecvRes)
         (allocs : List Int) (convs : List ConvRes),
        ∃ stf, FFMPEG_decode (ReadRes.code c :: reads) sends recvs allocs convs
            = PumpOut.aborted c recvs stf ∧ stf.buffer = []) ∧
      (∀ (reads : List ReadRes) (sends : List Int) (recvs : List RecvRes)
         (allocs : List Int) (convs : List ConvRes),
        ∃ stf, FFMPEG_decode (ReadRes.pkt 0 :: reads) (c :: sends) recvs allocs convs
            = PumpOut.aborted c recvs stf ∧ stf.buffer = []) ∧
      (∀ (recvs : List RecvRes) (allocs : List Int) (convs : List ConvRes),
        ∃ stf, FFMPEG_decode [ReadRes.pkt 0, ReadRes.code c] []
            (RecvRes.code AVERROR_EAGAIN :: recvs) allocs convs
            = PumpOut.aborted c recvs stf ∧ stf.buffer = []) ∧
      (∀ (recvs : List RecvRes) (allocs : List Int) (convs : List ConvRes),
        ∃ stf, FFMPEG_decode [ReadRes.pkt 0, ReadRes.pkt 0] [0, c]
            (RecvRes.code AVERROR_EAGAIN :: recvs) allocs convs
            = PumpOut.aborted c recvs stf ∧ stf.buffer = []) ∧
      (∀ (recvs : List RecvRes) (allocs : List Int) (convs : List ConvRes),
        ∃ stf, FFMPEG_decode [ReadRes.pkt 0] [] (RecvRes.code c :: recvs) allocs convs
            = PumpOut.aborted c recvs stf ∧ stf.buffer = []) ∧
      (∀ (nb : Nat) (recvs : List RecvRes) (convs : List ConvRes),
        ∃ stf, FFMPEG_decode [ReadRes.pkt 0] []
            (RecvRes.frame (nb + 1) :: recvs) [c] convs
            = PumpOut.aborted c recvs stf ∧ stf.buffer = []) ∧
      (∀ (nb : Nat) (out : List Nat) (recvs : List RecvRes),
        ∃ stf, FFMPEG_decode [ReadRes.pkt 0] []
            (RecvRes.frame nb :: recvs) [] [⟨c, out⟩]
            = PumpOut.aborted c recvs stf ∧ stf.buffer = [])) := by
  constructor
  · intro reads sends recvs allocs convs c rz stf h
    exact (isFatal_iff c).mp (FFMPEG_decode_aborted_fatal _ _ _ _ _ _ _ _ h)
  · intro c hc hne hne2
    have hf : isFatal c = true := (isFatal_iff c).mpr ⟨hc, hne, hne2⟩
    have hnc : ¬((0 : Int) ≤ c) := by omega
    refine ⟨?_, ?_, ?_, ?_, ?_, ?_, ?_⟩
    · intro reads sends recvs allocs convs
      refine ⟨{ reads := reads, sends := sends, allocs := allocs, convs := convs,
                buffer := [], lineSize := 0, lastNb := 0, frameNb := 0, scratch := [],
                packetStream := 0, allocCount := 0, freeCount := 0, sentStreams := [],
                chunks := [] }, ?_, rfl⟩
      unfold FFMPEG_decode
      dsimp only
      rw [if_pos hf]
    · intro reads sends recvs allocs convs
      simp only [FFMPEG_decode, sendHead, isFatal_zero, Bool.false_eq_true, if_false, hf,
        if_true]
      exact ⟨_, rfl, rfl⟩
    · intro recvs allocs convs
      rw [show ([ReadRes.pkt 0, ReadRes.code c] : List ReadRes)
          = ReadRes.pkt 0 :: [ReadRes.code c] from rfl, decode_start]
      rw [pump_code_eagain 0 _ _ (by decide), pump_eq]
      simp only [readPhase, if_true, hf]
      exact ⟨_, rfl, rfl⟩
    · intro recvs allocs convs
      simp only [FFMPEG_decode, sendHead, isFatal_zero, Bool.false_eq_true, if_false]
      rw [pump_code_eagain 0 _ _ (by decide), pump_eq]
      simp only [readPhase, sendHead, if_true, isFatal_zero, Bool.false_eq_true, if_false,
        show ¬((0 : Int) = AVERROR_EOF) from by decide, hf]
      exact ⟨_, rfl, rfl⟩
    · intro recvs allocs convs
      rw [show ([ReadRes.pkt 0] : List ReadRes) = ReadRes.pkt 0 :: [] from rfl, decode_start]
      rw [pump_eq]
      simp only [readPhase, show ¬((0 : Int) = AVERROR_EAGAIN) from by decide, if_false, hne,
        procPhase, ne_eq, not_true_eq_false, if_false, reduceIte, hf, if_true]
      exact ⟨_, rfl, rfl⟩
    · intro nb recvs convs
      rw [show ([ReadRes.pkt 0] : List ReadRes) = ReadRes.pkt 0 :: [] from rfl, decode_start]
      rw [pump_eq]
      simp only [readPhase, show ¬((0 : Int) = AVERROR_EAGAIN) from by decide, if_false,
        procPhase, allocHead, Nat.succ_ne_zero, ne_eq, reduceIte, hnc, hf, if_true,
        if_false, Nat.add_one_ne_zero, not_false_eq_true]
      exact ⟨_, rfl, rfl⟩
    · intro nb out recvs
      rw [show ([ReadRes.pkt 0] : List ReadRes) = ReadRes.pkt 0 :: [] from rfl, decode_start]
      rw [pump_eq]
      by_cases hnb : nb = 0
      · subst hnb
        simp only [readPhase, show ¬((0 : Int) = AVERROR_EAGAIN) from by decide, if_false,
          procPhase, convHead, ne_eq, not_true_eq_false, reduceIte, isFatal_zero,
          Bool.false_eq_true, hnc, hf, if_true]
        exact ⟨_, rfl, rfl⟩
      · simp only [readPhase, show ¬((0 : Int) = AVERROR_EAGAIN) from by decide, if_false,
          procPhase, allocHead, convHead, ne_eq, hnb, not_false_eq_true, reduceIte,
          isFatal_zero, Bool.false_eq_true, hnc, hf, if_true, le_refl, if_false]
        exact ⟨_, rfl, rfl⟩

theorem C6_fatal_iff_not_recoverable_witness :
    ((FFMPEG_decode [ReadRes.code (-5)] [] [] [] []
        = PumpOut.aborted (-5) []
            (PumpOut.st (FFMPEG_decode [ReadRes.code (-5)] [] [] [] []))) ∧
     ((-5 : Int) < 0 ∧ (-5 : Int) ≠ AVERROR_EAGAIN ∧ (-5 : Int) ≠ AVERROR_EOF)) ∧
    ((-5 : Int) < 0 ∧
     (∃ stf, FFMPEG_decode (ReadRes.code (-5) :: []) [] [] [] []
         = PumpOut.aborted (-5) [] stf ∧ stf.buffer = []) ∧
     (∃ stf, FFMPEG_decode (ReadRes.pkt 0 :: []) ((-5) :: []) [] [] []
         = PumpOut.aborted (-5) [] stf ∧ stf.buffer = []) ∧
     (∃ stf, FFMPEG_decode [ReadRes.pkt 0, ReadRes.code (-5)] []
         (RecvRes.code AVERROR_EAGAIN :: []) [] []
         = PumpOut.aborted (-5) [] stf ∧ stf.buffer = []) ∧
     (∃ stf, FFMPEG_decode [ReadRes.pkt 0, ReadRes.pkt 0] [0, -5]
         (RecvRes.code AVERROR_EAGAIN :: []) [] []
         = PumpOut.aborted (-5) [] stf ∧ stf.buffer = []) ∧
     (∃ stf, FFMPEG_decode [ReadRes.pkt 0] [] (RecvRes.code (-5) :: []) [] []
         = PumpOut.aborted (-5) [] stf ∧ stf.buffer = []) ∧
     (∃ stf, FFMPEG_decode [ReadRes.pkt 0] [] (RecvRes.frame (2 + 1) :: []) [-5] []
         = PumpOut.aborted (-5) [] stf ∧ stf.buffer = []) ∧
     (∃ stf, FFMPEG_decode [ReadRes.pkt 0] [] (RecvRes.frame 4 :: []) [] [⟨-5, [9]⟩]
         = PumpOut.aborted (-5) [] stf ∧ stf.buffer = [])) := by
  have h2 := C6_fatal_iff_not_recoverable.2 (-5) (by decide) (by decide) (by decide)
  constructor
  · exact ⟨rfl, C6_fatal_iff_not_recoverable.1 [ReadRes.code (-5)] [] [] [] [] (-5) [] _ rfl⟩
  · exact ⟨by decide, h2.1 [] [] [] [] [], h2.2.1 [] [] [] [] [],
      h2.2.2.1 [] [] [], h2.2.2.2.1 [] [] [], h2.2.2.2.2.1 [] [] [],
      h2.2.2.2.2.2.1 2 [] [], h2.2.2.2.2.2.2 4 [9] []⟩

/-- C7: for every container whose streams contain no audio stream, the
setup routine reports the terminal diagnostic `"FFMPEG could not find any
audio stream!"` and exits with `-1` (modelled as `Except.error`); in
particular it never produces a `SoundData`, empty or otherwise. -/
theorem C7_no_audio_stream_is_error (streams : List MediaType) (rate : Int)
    (reads : List ReadRes) (sends : List Int) (recvs : List RecvRes)
    (allocs : List Int) (convs : List ConvRes)
    (h : ∀ s ∈ streams, s ≠ MediaType.audio) :
    read_audio_into_buffer streams rate reads sends recvs allocs convs
      = Except.error (-1, "FFMPEG could not find any audio stream!") := by
  unfold read_audio_into_buffer
  rw [findAudioIdx_eq_none streams h]

theorem C7_no_audio_stream_is_error_witness :
    (∀ s ∈ [MediaType.video, MediaType.other], s ≠ MediaType.audio) ∧
    read_audio_into_buffer [MediaType.video, MediaType.other] 44100 [] [] [] [] []
      = Except.error (-1, "FFMPEG could not find any audio stream!") := by
  refine ⟨by decide, ?_⟩
  exact C7_no_audio_stream_is_error [MediaType.video, MediaType.other] 44100 [] [] [] [] []
    (by decide)

/-- C8: the pump feeds every packet `av_read_frame` hands it to
`avcodec_send_packet`, without inspecting `packet->stream_index`
(`FFMPEG_decode` is not even told which stream was selected).  On a
container that delivers a packet of stream `0` (the selected audio stream)
followed by a packet of stream `1` (some other stream), both packets reach
the decoder: the run completes normally with `sentStreams = [0, 1]`,
contradicting the claim that packets of other streams are never fed. -/
theorem C8_all_packets_reach_decoder :
    (PumpOut.st (FFMPEG_decode [ReadRes.pkt 0, ReadRes.pkt 1, ReadRes.code AVERROR_EOF] []
      [RecvRes.code AVERROR_EAGAIN, RecvRes.code AVERROR_EAGAIN] [] [])).sentStreams
      = [0, 1] ∧
    (FFMPEG_decode [ReadRes.pkt 0, ReadRes.pkt 1, ReadRes.code AVERROR_EOF] []
      [RecvRes.code AVERROR_EAGAIN, RecvRes.code AVERROR_EAGAIN] [] []).isAborted
      = false := by
  exact ⟨rfl, rfl⟩

/-- C9 counterexample: on a source whose total size is known (a regular
file of size 100 at read position 25), a seek call with the size-query
sentinel origin `0x10000` returns `-1`, not the size `100`: the adapter
never reports a known size, so the claim as stated is false. -/
theorem C9_counterexample_known_size :
    (SeekCallback ⟨25, 100⟩ 0 AVSEEK_SIZE).1 = -1 ∧
    (SeekCallback ⟨25, 100⟩ 0 AVSEEK_SIZE).1 ≠ 100 := by
  decide

/-- C9 (amended): for every seek call with the size-query sentinel origin,
`SeekCallback` returns `-1` — an explicit error/unsupported result, never a
fabricated size — and leaves the read position unchanged, regardless of
whether the source's size is known. -/
theorem C9_size_query_always_unsupported (f : FileSt) (off : Int) :
    SeekCallback f off AVSEEK_SIZE = (-1, f) := by
  unfold SeekCallback
  simp

/-- C10: in every iteration that appends to the output buffer, the number
of bytes appended equals the line size fixed at the most recent
`av_samples_alloc` (`2 * nb_samples` bytes for mono 16-bit) — here, for a
single frame of `nb` samples, the run finishes with
`buffer.length = lineSize = 2 * nb` no matter what value `r ≥ 0`
`swr_convert` reports having produced and no matter which bytes `out` it
actually wrote: the positive return value of `swr_convert` is ignored. -/
theorem C10_append_ignores_convert_count (nb : Nat) (r : Int) (out : List Nat)
    (hr : 0 ≤ r) :
    ∃ stf, FFMPEG_decode [ReadRes.pkt 0, ReadRes.code AVERROR_EOF] []
        [RecvRes.frame nb, RecvRes.code AVERROR_EAGAIN] [] [⟨r, out⟩]
        = PumpOut.finished [] stf ∧
      stf.buffer.length = stf.lineSize ∧ stf.lineSize = 2 * nb := by
  rw [show ([ReadRes.pkt 0, ReadRes.code AVERROR_EOF] : List ReadRes)
      = ReadRes.pkt 0 :: [ReadRes.code AVERROR_EOF] from rfl, decode_start]
  rw [pump_eq]
  have h0 : ¬((0 : Int) = AVERROR_EAGAIN) := by decide
  simp only [readPhase, if_neg h0]
  have hproc : procPhase 0
      { reads := [ReadRes.code AVERROR_EOF], sends := [], allocs := [],
        convs := [⟨r, out⟩], buffer := [], lineSize := 0,
        lastNb := 0, frameNb := nb, scratch := [], packetStream := 0,
        allocCount := 0, freeCount := 0, sentStreams := [0], chunks := [] }
      = ProcOut.cont r
        { reads := [ReadRes.code AVERROR_EOF], sends := [], allocs := [],
          convs := [], buffer := [] ++ (if nb = 0 then ([] : List Nat)
            else overwriteFront (List.replicate (2 * nb) 0) out),
          lineSize := if nb = 0 then 0 else 2 * nb,
          lastNb := nb, frameNb := nb,
          scratch := (if nb = 0 then ([] : List Nat)
            else overwriteFront (List.replicate (2 * nb) 0) out),
          packetStream := 0,
          allocCount := if nb = 0 then 0 else 1, freeCount := 0,
          sentStreams := [0],
          chunks := [] ++ [(if nb = 0 then ([] : List Nat)
            else overwriteFront (List.replicate (2 * nb) 0) out)] } := by
    by_cases hnb : nb = 0
    · subst hnb
      unfold procPhase
      simp [convHead, isFatal_nonneg hr, ne_eagain_of_nonneg hr, ne_eof_of_nonneg hr,
        overwriteFront, isFatal_zero, hr]
    · unfold procPhase
      rw [if_pos (by simpa using hnb)]
      simp only [allocHead]
      rw [if_pos (by omega : (0 : Int) ≤ 0)]
      simp [convHead, isFatal_nonneg hr, ne_eagain_of_nonneg hr, ne_eof_of_nonneg hr,
        isFatal_zero, if_neg hnb, hr]
  rw [hproc]
  dsimp only
  rw [pump_code_eagain r _ _ (ne_eagain_of_nonneg hr), pump_eagain_eof _ [] [] rfl]
  refine ⟨_, rfl, ?_, ?_⟩
  · by_cases hnb : nb = 0 <;> simp [hnb, overwriteFront_length]
  · by_cases hnb : nb = 0 <;> simp [hnb]

theorem C10_append_ignores_convert_count_witness :
    ((0 : Int) ≤ 3) ∧
    (∃ stf, FFMPEG_decode [ReadRes.pkt 0, ReadRes.code AVERROR_EOF] []
        [RecvRes.frame 7, RecvRes.code AVERROR_EAGAIN] [] [⟨3, []⟩]
        = PumpOut.finished [] stf ∧
      stf.buffer.length = stf.lineSize ∧ stf.lineSize = 2 * 7) := by
  exact ⟨by decide, C10_append_ignores_convert_count 7 3 [] (by decide)⟩
